import Mathlib

/-!
# Verification of the EVM API requestor (`arbitrator/arbutil/src/evm/req.rs`)

Shallow embedding of the host-call boundary layer: byte sequences are
`List Nat`, machine integers are `Nat` with explicit `% 2 ^ w` / saturation
where the source relies on fixed-width behaviour, the external request
primitive (`RequestHandler`) is an explicit state machine threaded through
every operation, and panics are modelled as `Option.none` results.
-/

/-! ## Byte-sequence primitives -/

/-- Raw byte sequence (each entry is one byte). -/
abbrev Bytes := List Nat

/-- A 20-byte address value (`Bytes20` in the source). -/
abbrev Bytes20 := Bytes

/-- A 32-byte word value (`Bytes32` in the source). -/
abbrev Bytes32 := Bytes

/-- Big-endian byte encoding of `n` into `w` bytes, truncating to `n % 256 ^ w`
like Rust's `to_be_bytes` on a `w`-byte integer (after an `as` cast). -/
def beBytes : Nat → Nat → Bytes
  | 0, _ => []
  | w + 1, n => beBytes w (n / 256) ++ [n % 256]

/-- Big-endian value of a byte sequence. -/
def beVal (l : Bytes) : Nat :=
  l.foldl (fun a b => a * 256 + b) 0

/-- The all-zero 32-byte word, `Bytes32::default()` in the source. -/
def bytes32Zero : Bytes32 := List.replicate 32 0

/-- Saturating 64-bit addition, Rust's `u64::saturating_add`. -/
def saturatingAdd (a b : Nat) : Nat := min (a + b) (2 ^ 64 - 1)

/-! ## UTF-8 and error-message formatting -/

/-- Whether a byte is a UTF-8 continuation byte (`0x80..=0xBF`). -/
def utf8Cont (b : Nat) : Bool := 128 ≤ b && b < 192

/-- UTF-8 validity of a byte sequence, the success condition of Rust's
`String::from_utf8`: rejects stray continuation bytes, overlong encodings,
surrogate code points and values above `U+10FFFF`. -/
def utf8Valid : Bytes → Bool
  | [] => true
  | b :: rest =>
    if b < 128 then utf8Valid rest
    else if b < 194 then false
    else if b < 224 then
      match rest with
      | c1 :: r => utf8Cont c1 && utf8Valid r
      | [] => false
    else if b < 240 then
      match rest with
      | c1 :: c2 :: r =>
        (if b = 224 then decide (160 ≤ c1) && decide (c1 < 192)
         else if b = 237 then decide (128 ≤ c1) && decide (c1 < 160)
         else utf8Cont c1) && utf8Cont c2 && utf8Valid r
      | _ => false
    else if b < 245 then
      match rest with
      | c1 :: c2 :: c3 :: r =>
        (if b = 240 then decide (144 ≤ c1) && decide (c1 < 192)
         else if b = 244 then decide (128 ≤ c1) && decide (c1 < 144)
         else utf8Cont c1) && utf8Cont c2 && utf8Cont c3 && utf8Valid r
      | _ => false
    else false

/-- ASCII code of the hex digit for `n < 16` (lowercase). -/
def hexDigit (n : Nat) : Nat := if n < 10 then 48 + n else 87 + n

/-- Lowercase hex expansion of a byte sequence, two digits per byte. -/
def hexBytes : Bytes → Bytes
  | [] => []
  | b :: rest => hexDigit (b / 16 % 16) :: hexDigit (b % 16) :: hexBytes rest

/-- Modelled from the spec: `format::Utf8OrHex::from_utf8_or_hex` (the module
`format.rs` is not part of the sources here). Decodes bytes as UTF-8 text,
degrading to a raw-hex representation when the bytes are not valid text (§7). -/
def from_utf8_or_hex (l : Bytes) : Bytes :=
  if utf8Valid l then l else hexBytes l

/-- Byte sequence of the fixed fallback string `"create_response_malformed"`
used by `create_request` when the stripped response is not valid UTF-8. -/
def createResponseMalformed : Bytes :=
  [99, 114, 101, 97, 116, 101, 95, 114, 101, 115, 112, 111, 110, 115, 101,
   95, 109, 97, 108, 102, 111, 114, 109, 101, 100]

/-- Byte sequence of the fallback string `"malformed emit-log response"`. -/
def malformedEmitLogResponse : Bytes :=
  [109, 97, 108, 102, 111, 114, 109, 101, 100, 32, 101, 109, 105, 116, 45,
   108, 111, 103, 32, 114, 101, 115, 112, 111, 110, 115, 101]

/-! ## Protocol enumerations -/

/-- Operation tag of a host request: one constructor per request kind issued by
`req.rs` (the closed operation list of spec §3). -/
inductive EvmApiMethod where
  | getBytes32
  | setTrieSlots
  | contractCall
  | delegateCall
  | staticCall
  | create1
  | create2
  | emitLog
  | accountBalance
  | accountCode
  | accountCodeHash
  | addPages
  | captureHostio
  deriving DecidableEq, Repr

/-- Host status byte source, `EvmApiStatus` in `api.rs`. -/
inductive EvmApiStatus where
  | Success
  | Failure
  deriving DecidableEq, Repr

/-- Modelled from the spec: the numeric status byte of `EvmApiStatus`
(`api.rs` is not part of the sources here); the spec's wire table (§6) only
fixes that a flush success response is the success status byte. -/
def EvmApiStatus.toByte : EvmApiStatus → Nat
  | .Success => 0
  | .Failure => 1

/-- How a call or create completed (`UserOutcomeKind` in `user.rs`). -/
inductive UserOutcomeKind where
  | Success
  | Revert
  | Failure
  | OutOfInk
  | OutOfStack
  deriving DecidableEq, Repr

/-- Modelled from the spec: decoding the outcome byte (`user.rs` is not part
of the sources here). A closed enumeration decoded from a single status byte;
an unrecognized byte is a fatal protocol violation (§3), hence `none`. -/
def UserOutcomeKind.fromByte : Nat → Option UserOutcomeKind
  | 0 => some .Success
  | 1 => some .Revert
  | 2 => some .Failure
  | 3 => some .OutOfInk
  | 4 => some .OutOfStack
  | _ => none

/-! ## Storage cache -/

/-- Modelled from the spec: a storage slot record (`StorageWord` in
`storage.rs`, not part of the sources here): a last `known` synced value and
the current `value` (§3). -/
structure StorageWord where
  value : Bytes32
  known : Option Bytes32
  deriving DecidableEq, Repr

/-- Modelled from the spec: `StorageWord::known(value)`, a record freshly
confirmed synced with the host (§4.1: miss inserts `known = Some(fetched)`,
`value = fetched`). -/
def StorageWord.knownOf (v : Bytes32) : StorageWord := ⟨v, some v⟩

/-- Modelled from the spec: `StorageWord::unknown(value)`, a record written
but never confirmed synced since creation (`known = None`, §3). -/
def StorageWord.unknownOf (v : Bytes32) : StorageWord := ⟨v, none⟩

/-- Modelled from the spec: the dirty predicate — a record is dirty iff
`known` is absent or differs from `value` (§3). -/
def StorageWord.dirty (w : StorageWord) : Bool := w.known ≠ some w.value

/-- Modelled from the spec: the fixed per-read base cost of the storage cache
(`StorageCache::read_gas`); the exact constant is a deployment parameter (§3). -/
def READ_GAS : Nat := 2

/-- Modelled from the spec: the fixed per-write base cost of the storage cache
(`StorageCache::write_gas`); the exact constant is a deployment parameter (§3). -/
def WRITE_GAS : Nat := 3

/-- Modelled from the spec: `pricing::EVM_API_INK`, the fixed per-access cost
of crossing the host boundary, charged on a storage-read miss (§4.1); the
exact constant is a deployment parameter. -/
def EVM_API_INK : Nat := 128

/-- The storage cache: a key-to-record mapping. The source uses a `HashMap`;
the model uses an association list whose order stands for the map's iteration
order. -/
structure StorageCache where
  slots : List (Bytes32 × StorageWord)
  deriving DecidableEq, Repr

/-- Cost of a cached read, `StorageCache::read_gas`. -/
def StorageCache.read_gas (_ : StorageCache) : Nat := READ_GAS

/-- Cost of a cached write, `StorageCache::write_gas`. -/
def StorageCache.write_gas (_ : StorageCache) : Nat := WRITE_GAS

/-- Association-list lookup of a slot record by key (`HashMap` lookup). -/
def lookupSlot : List (Bytes32 × StorageWord) → Bytes32 → Option StorageWord
  | [], _ => none
  | (k, w) :: rest, key => if k = key then some w else lookupSlot rest key

/-- The `Entry` update of `cache_bytes32`: on an occupied entry set `value`
only; on a vacant entry insert `StorageWord::unknown(value)`. -/
def setSlot : List (Bytes32 × StorageWord) → Bytes32 → Bytes32 →
    List (Bytes32 × StorageWord)
  | [], key, value => [(key, StorageWord.unknownOf value)]
  | (k, w) :: rest, key, value =>
    if k = key then (k, { w with value := value }) :: rest
    else (k, w) :: setSlot rest key value

/-- The flush loop of `flush_storage_cache`: walks the slots once, emitting
`key ++ value` for every dirty record and simultaneously marking it clean
(`known := Some(value)`). Returns (emitted payload bytes, updated slots). -/
def flushSlots : List (Bytes32 × StorageWord) →
    Bytes × List (Bytes32 × StorageWord)
  | [] => ([], [])
  | (k, w) :: rest =>
    let (d, rs) := flushSlots rest
    if w.dirty then
      (k ++ w.value ++ d, (k, { w with known := some w.value }) :: rs)
    else
      (d, (k, w) :: rs)

/-- The dirty `(key, value)` pairs of a slot list, in iteration order. -/
def dirtySlotPairs : List (Bytes32 × StorageWord) → List (Bytes32 × Bytes32)
  | [] => []
  | (k, w) :: rest =>
    if w.dirty then (k, w.value) :: dirtySlotPairs rest else dirtySlotPairs rest

/-- Marking every dirty record clean (`known := Some(value)`), keys and order
untouched. -/
def markClean : List (Bytes32 × StorageWord) → List (Bytes32 × StorageWord)
  | [] => []
  | (k, w) :: rest =>
    if w.dirty then (k, { w with known := some w.value }) :: markClean rest
    else (k, w) :: markClean rest

/-! ## The orchestrator -/

/-- The returned-data handle operations: `DataReader` exposes the underlying
bytes via `slice` (cloning a handle is pure sharing, identity in the model). -/
structure DataReader (D : Type) where
  slice : D → Bytes

/-- The external request primitive (trait `RequestHandler`): given the handler
state, an operation tag and a payload, returns (response bytes, returned-data
handle, gas cost) and the next handler state. -/
structure RequestHandler (S D : Type) where
  handle_request : S → EvmApiMethod → Bytes → (Bytes × D × Nat) × S

/-- The orchestrator `EvmApiRequestor`: the handler state, the two single-slot
side caches and the storage cache. -/
structure EvmApiRequestor (S D : Type) where
  handler : S
  last_code : Option (Bytes20 × D)
  last_return_data : Option D
  storage_cache : StorageCache

/-- `EvmApiRequestor::new`: empty caches around a fresh handler. -/
def EvmApiRequestor.new (h : S) : EvmApiRequestor S D :=
  { handler := h, last_code := none, last_return_data := none,
    storage_cache := ⟨[]⟩ }

/-- Private helper `handle_request`: forwards to the handler, threading its
state. -/
def EvmApiRequestor.handle_request (H : RequestHandler S D)
    (st : EvmApiRequestor S D) (ty : EvmApiMethod) (data : Bytes) :
    (Bytes × D × Nat) × EvmApiRequestor S D :=
  let out := H.handle_request st.handler ty data
  (out.1, { st with handler := out.2 })

/-- `get_bytes32`: on a hit returns the cached value at the fixed read cost;
on a miss requests the key, inserts `StorageWord::known(fetched)` and charges
read cost plus request gas plus `EVM_API_INK` (saturating). `none` models the
panic of `res.try_into().unwrap()` on a response that is not 32 bytes. -/
def EvmApiRequestor.get_bytes32 (H : RequestHandler S D)
    (st : EvmApiRequestor S D) (key : Bytes32) :
    Option ((Bytes32 × Nat) × EvmApiRequestor S D) :=
  match lookupSlot st.storage_cache.slots key with
  | some w => some ((w.value, st.storage_cache.read_gas), st)
  | none =>
    let out := st.handle_request H .getBytes32 key
    let res := out.1.1
    let gas := out.1.2.2
    let st' := out.2
    if res.length = 32 then
      some ((res, saturatingAdd (saturatingAdd st.storage_cache.read_gas gas)
              EVM_API_INK),
        { st' with storage_cache :=
            ⟨st'.storage_cache.slots ++ [(key, StorageWord.knownOf res)]⟩ })
    else none

/-- `cache_bytes32`: updates or inserts the record via the `Entry` API and
returns the fixed write cost. -/
def EvmApiRequestor.cache_bytes32 (st : EvmApiRequestor S D)
    (key value : Bytes32) : Nat × EvmApiRequestor S D :=
  (st.storage_cache.write_gas,
   { st with storage_cache := ⟨setSlot st.storage_cache.slots key value⟩ })

/-- `flush_storage_cache`: builds `gas_left(8 BE) ++ (key ++ value)*` over the
dirty records while marking them clean, clears the cache first when `clear` is
set, submits the request, and returns `Ok(cost)` on a success status byte or
`Err(message)` otherwise. `none` models the panic of `res[0]` on an empty
response. -/
def EvmApiRequestor.flush_storage_cache (H : RequestHandler S D)
    (st : EvmApiRequestor S D) (clear : Bool) (gas_left : Nat) :
    Option ((Except Bytes Nat) × EvmApiRequestor S D) :=
  let pr := flushSlots st.storage_cache.slots
  let data := beBytes 8 gas_left ++ pr.1
  let st₁ : EvmApiRequestor S D :=
    { st with storage_cache := ⟨if clear then [] else pr.2⟩ }
  let out := st₁.handle_request H .setTrieSlots data
  let res := out.1.1
  let cost := out.1.2.2
  let st₂ := out.2
  match res.head? with
  | none => none
  | some b =>
    if b = EvmApiStatus.toByte .Success then some (.ok cost, st₂)
    else some (.error (from_utf8_or_hex res), st₂)

/-- Private helper `call_request`: payload is
`contract(20) ++ value(32) ++ gas(8 BE) ++ input`; the response's first byte
is the outcome, the data handle becomes the last return data, and its length
is reported. `none` models the panics of `res[0]` on an empty response and of
`try_into().expect` on an unknown outcome byte. -/
def EvmApiRequestor.call_request (H : RequestHandler S D) (R : DataReader D)
    (st : EvmApiRequestor S D) (call_type : EvmApiMethod) (contract : Bytes20)
    (input : Bytes) (gas : Nat) (value : Bytes32) :
    Option ((Nat × Nat × UserOutcomeKind) × EvmApiRequestor S D) :=
  let request := contract ++ value ++ beBytes 8 gas ++ input
  let out := st.handle_request H call_type request
  let res := out.1.1
  let data := out.1.2.1
  let cost := out.1.2.2
  let st' := out.2
  match res.head? with
  | none => none
  | some b =>
    match UserOutcomeKind.fromByte b with
    | none => none
    | some status =>
      some (((R.slice data).length, cost, status),
        { st' with last_return_data := some data })

/-- Private helper `create_request`: payload is
`gas(8 BE) ++ endowment(32) ++ [salt(32)] ++ code`. A 21-byte response with a
non-zero first byte is success carrying the address in bytes 1..21; anything
else is a failure whose message is the response minus its first byte (when
present), decoded as UTF-8 with a fixed fallback. -/
def EvmApiRequestor.create_request (H : RequestHandler S D) (R : DataReader D)
    (st : EvmApiRequestor S D) (create_type : EvmApiMethod) (code : Bytes)
    (endowment : Bytes32) (salt : Option Bytes32) (gas : Nat) :
    (Except Bytes Bytes20 × Nat × Nat) × EvmApiRequestor S D :=
  let request := beBytes 8 gas ++ endowment ++
    (match salt with | some s => s | none => []) ++ code
  let out := st.handle_request H create_type request
  let res := out.1.1
  let data := out.1.2.1
  let cost := out.1.2.2
  let st' := out.2
  if res.length ≠ 21 ∨ res.head? = some 0 then
    let stripped := if res = [] then res else res.tail
    let err := if utf8Valid stripped then stripped else createResponseMalformed
    ((.error err, 0, cost), st')
  else
    ((.ok res.tail, (R.slice data).length, cost),
     { st' with last_return_data := some data })

/-- `contract_call`. -/
def EvmApiRequestor.contract_call (H : RequestHandler S D) (R : DataReader D)
    (st : EvmApiRequestor S D) (contract : Bytes20) (input : Bytes)
    (gas : Nat) (value : Bytes32) :
    Option ((Nat × Nat × UserOutcomeKind) × EvmApiRequestor S D) :=
  st.call_request H R .contractCall contract input gas value

/-- `delegate_call`: carries no value, so the value word is the zero word. -/
def EvmApiRequestor.delegate_call (H : RequestHandler S D) (R : DataReader D)
    (st : EvmApiRequestor S D) (contract : Bytes20) (input : Bytes)
    (gas : Nat) :
    Option ((Nat × Nat × UserOutcomeKind) × EvmApiRequestor S D) :=
  st.call_request H R .delegateCall contract input gas bytes32Zero

/-- `static_call`: carries no value, so the value word is the zero word. -/
def EvmApiRequestor.static_call (H : RequestHandler S D) (R : DataReader D)
    (st : EvmApiRequestor S D) (contract : Bytes20) (input : Bytes)
    (gas : Nat) :
    Option ((Nat × Nat × UserOutcomeKind) × EvmApiRequestor S D) :=
  st.call_request H R .staticCall contract input gas bytes32Zero

/-- `create1` (no salt). -/
def EvmApiRequestor.create1 (H : RequestHandler S D) (R : DataReader D)
    (st : EvmApiRequestor S D) (code : Bytes) (endowment : Bytes32)
    (gas : Nat) : (Except Bytes Bytes20 × Nat × Nat) × EvmApiRequestor S D :=
  st.create_request H R .create1 code endowment none gas

/-- `create2` (salted). -/
def EvmApiRequestor.create2 (H : RequestHandler S D) (R : DataReader D)
    (st : EvmApiRequestor S D) (code : Bytes) (endowment : Bytes32)
    (salt : Bytes32) (gas : Nat) :
    (Except Bytes Bytes20 × Nat × Nat) × EvmApiRequestor S D :=
  st.create_request H R .create2 code endowment (some salt) gas

/-- `get_return_data`: clones the stored handle; `none` models the panic of
`.expect("missing return data")` when no call or create has stored one. -/
def EvmApiRequestor.get_return_data (st : EvmApiRequestor S D) : Option D :=
  st.last_return_data

/-- `emit_log`: payload `topics(4 BE) ++ data`; an empty response is success,
a non-empty one is an error message (UTF-8 with fallback). -/
def EvmApiRequestor.emit_log (H : RequestHandler S D)
    (st : EvmApiRequestor S D) (data : Bytes) (topics : Nat) :
    Except Bytes Unit × EvmApiRequestor S D :=
  let request := beBytes 4 topics ++ data
  let out := st.handle_request H .emitLog request
  let res := out.1.1
  let st' := out.2
  if res = [] then (.ok (), st')
  else
    ((.error (if utf8Valid res then res else malformedEmitLogResponse)), st')

/-- `account_balance`: raw address payload, 32-byte response; `none` models
the panic of `try_into().unwrap()` on a wrongly sized response. -/
def EvmApiRequestor.account_balance (H : RequestHandler S D)
    (st : EvmApiRequestor S D) (address : Bytes20) :
    Option ((Bytes32 × Nat) × EvmApiRequestor S D) :=
  let out := st.handle_request H .accountBalance address
  let res := out.1.1
  let cost := out.1.2.2
  let st' := out.2
  if res.length = 32 then some ((res, cost), st') else none

/-- `account_code`: consults the single-entry code cache; on a hit returns the
cached handle at cost 0, on a miss sends `address ++ gas_left(8 BE)` and
replaces the cache entry. -/
def EvmApiRequestor.account_code (H : RequestHandler S D)
    (st : EvmApiRequestor S D) (address : Bytes20) (gas_left : Nat) :
    (D × Nat) × EvmApiRequestor S D :=
  match st.last_code with
  | some (stored_address, data) =>
    if address = stored_address then ((data, 0), st)
    else
      let req := address ++ beBytes 8 gas_left
      let out := st.handle_request H .accountCode req
      ((out.1.2.1, out.1.2.2),
       { out.2 with last_code := some (address, out.1.2.1) })
  | none =>
    let req := address ++ beBytes 8 gas_left
    let out := st.handle_request H .accountCode req
    ((out.1.2.1, out.1.2.2),
     { out.2 with last_code := some (address, out.1.2.1) })

/-- `account_codehash`: raw address payload, 32-byte response; `none` models
the panic of `try_into().unwrap()` on a wrongly sized response. -/
def EvmApiRequestor.account_codehash (H : RequestHandler S D)
    (st : EvmApiRequestor S D) (address : Bytes20) :
    Option ((Bytes32 × Nat) × EvmApiRequestor S D) :=
  let out := st.handle_request H .accountCodeHash address
  let res := out.1.1
  let cost := out.1.2.2
  let st' := out.2
  if res.length = 32 then some ((res, cost), st') else none

/-- `add_pages`: raw 2-byte big-endian page count; only the cost is returned. -/
def EvmApiRequestor.add_pages (H : RequestHandler S D)
    (st : EvmApiRequestor S D) (pages : Nat) :
    Nat × EvmApiRequestor S D :=
  let out := st.handle_request H .addPages (beBytes 2 pages)
  (out.1.2.2, out.2)

/-- `capture_hostio`: two 8-byte counters, three 2-byte length prefixes
(`as u16`, hence truncating), then the three blobs; the response is ignored. -/
def EvmApiRequestor.capture_hostio (H : RequestHandler S D)
    (st : EvmApiRequestor S D) (name args outs : Bytes)
    (start_ink end_ink : Nat) : EvmApiRequestor S D :=
  let request := beBytes 8 start_ink ++ beBytes 8 end_ink ++
    beBytes 2 name.length ++ beBytes 2 args.length ++ beBytes 2 outs.length ++
    name ++ args ++ outs
  (st.handle_request H .captureHostio request).2

/-! ## Test handlers: observing the submitted requests -/

/-- Recording handler: the handler state is the log of `(tag, payload)` pairs
submitted so far; responses are produced by a pure response function `f`. -/
def spy (f : EvmApiMethod → Bytes → Bytes × D × Nat) :
    RequestHandler (List (EvmApiMethod × Bytes)) D :=
  ⟨fun s ty data => (f ty data, s ++ [(ty, data)])⟩

/-- Constant handler: every request gets the same response triple. -/
def constHandler (res : Bytes) (d : D) (c : Nat) : RequestHandler Unit D :=
  ⟨fun s _ _ => ((res, d, c), s)⟩

/-- Identity data reader for `D := Bytes`: the handle is its own byte slice. -/
def bytesReader : DataReader Bytes := ⟨id⟩

/-- Trivial data reader for `D := Unit`. -/
def unitReader : DataReader Unit := ⟨fun _ => []⟩

/-! ## Typed requests and the host-side decoder -/

/-- A typed request: one constructor per operation kind, holding exactly the
arguments the corresponding `req.rs` operation serializes. -/
inductive EvmRequest where
  | getBytes32 (key : Bytes32)
  | setTrieSlots (gas_left : Nat) (pairs : List (Bytes32 × Bytes32))
  | contractCall (contract : Bytes20) (input : Bytes) (gas : Nat)
      (value : Bytes32)
  | delegateCall (contract : Bytes20) (input : Bytes) (gas : Nat)
  | staticCall (contract : Bytes20) (input : Bytes) (gas : Nat)
  | create1 (code : Bytes) (endowment : Bytes32) (gas : Nat)
  | create2 (code : Bytes) (endowment : Bytes32) (salt : Bytes32) (gas : Nat)
  | emitLog (data : Bytes) (topics : Nat)
  | accountBalance (address : Bytes20)
  | accountCode (address : Bytes20) (gas_left : Nat)
  | accountCodehash (address : Bytes20)
  | addPages (pages : Nat)
  | captureHostio (name args outs : Bytes) (start_ink end_ink : Nat)
  deriving DecidableEq, Repr

/-- The operation tag a typed request is submitted under. -/
def EvmRequest.tag : EvmRequest → EvmApiMethod
  | .getBytes32 _ => .getBytes32
  | .setTrieSlots _ _ => .setTrieSlots
  | .contractCall _ _ _ _ => .contractCall
  | .delegateCall _ _ _ => .delegateCall
  | .staticCall _ _ _ => .staticCall
  | .create1 _ _ _ => .create1
  | .create2 _ _ _ _ => .create2
  | .emitLog _ _ => .emitLog
  | .accountBalance _ => .accountBalance
  | .accountCode _ _ => .accountCode
  | .accountCodehash _ => .accountCodeHash
  | .addPages _ => .addPages
  | .captureHostio _ _ _ _ _ => .captureHostio

/-- Concatenated `key ++ value` bytes of a list of slot pairs. -/
def pairsBytes : List (Bytes32 × Bytes32) → Bytes
  | [] => []
  | (k, v) :: rest => k ++ v ++ pairsBytes rest

/-- The request payload each operation of `req.rs` submits, transcribed from
the byte-building code of the corresponding function. -/
def encodeRequest : EvmRequest → Bytes
  | .getBytes32 key => key
  | .setTrieSlots gas_left pairs => beBytes 8 gas_left ++ pairsBytes pairs
  | .contractCall contract input gas value =>
    contract ++ value ++ beBytes 8 gas ++ input
  | .delegateCall contract input gas =>
    contract ++ bytes32Zero ++ beBytes 8 gas ++ input
  | .staticCall contract input gas =>
    contract ++ bytes32Zero ++ beBytes 8 gas ++ input
  | .create1 code endowment gas => beBytes 8 gas ++ endowment ++ code
  | .create2 code endowment salt gas =>
    beBytes 8 gas ++ endowment ++ salt ++ code
  | .emitLog data topics => beBytes 4 topics ++ data
  | .accountBalance address => address
  | .accountCode address gas_left => address ++ beBytes 8 gas_left
  | .accountCodehash address => address
  | .addPages pages => beBytes 2 pages
  | .captureHostio name args outs start_ink end_ink =>
    beBytes 8 start_ink ++ beBytes 8 end_ink ++ beBytes 2 name.length ++
    beBytes 2 args.length ++ beBytes 2 outs.length ++ name ++ args ++ outs

/-- Takes the big-endian value of the first `w` bytes, returning it with the
rest of the input; fails when fewer than `w` bytes remain. -/
def readBE (w : Nat) (l : Bytes) : Option (Nat × Bytes) :=
  if w ≤ l.length then some (beVal (l.take w), l.drop w) else none

/-- Takes the first `w` bytes, returning them with the rest of the input;
fails when fewer than `w` bytes remain. -/
def readBytes (w : Nat) (l : Bytes) : Option (Bytes × Bytes) :=
  if w ≤ l.length then some (l.take w, l.drop w) else none

/-- Splits a byte sequence into consecutive 32+32-byte `(key, value)` pairs;
fails unless the length is a multiple of 64. -/
def decodeSlotPairs (l : Bytes) : Option (List (Bytes32 × Bytes32)) :=
  if l = [] then some []
  else if 64 ≤ l.length then
    (decodeSlotPairs (l.drop 64)).map
      (fun ps => (l.take 32, (l.drop 32).take 32) :: ps)
  else none
termination_by l.length
decreasing_by
  simp only [List.length_drop]
  rename_i h1 h2
  have : 0 < l.length := List.length_pos.mpr h1
  omega

/-- Modelled from the spec: the host-side decoder of each operation's request
payload, written from the wire layout table of §6 (the host-side parser is not
part of the sources here). Tag-directed; strict about total length where the
layout fixes it. -/
def decodeRequest : EvmApiMethod → Bytes → Option EvmRequest
  | .getBytes32, l =>
    if l.length = 32 then some (.getBytes32 l) else none
  | .setTrieSlots, l => do
    let (gas_left, l) ← readBE 8 l
    let pairs ← decodeSlotPairs l
    some (.setTrieSlots gas_left pairs)
  | .contractCall, l => do
    let (contract, l) ← readBytes 20 l
    let (value, l) ← readBytes 32 l
    let (gas, l) ← readBE 8 l
    some (.contractCall contract l gas value)
  | .delegateCall, l => do
    let (contract, l) ← readBytes 20 l
    let (_, l) ← readBytes 32 l
    let (gas, l) ← readBE 8 l
    some (.delegateCall contract l gas)
  | .staticCall, l => do
    let (contract, l) ← readBytes 20 l
    let (_, l) ← readBytes 32 l
    let (gas, l) ← readBE 8 l
    some (.staticCall contract l gas)
  | .create1, l => do
    let (gas, l) ← readBE 8 l
    let (endowment, l) ← readBytes 32 l
    some (.create1 l endowment gas)
  | .create2, l => do
    let (gas, l) ← readBE 8 l
    let (endowment, l) ← readBytes 32 l
    let (salt, l) ← readBytes 32 l
    some (.create2 l endowment salt gas)
  | .emitLog, l => do
    let (topics, l) ← readBE 4 l
    some (.emitLog l topics)
  | .accountBalance, l =>
    if l.length = 20 then some (.accountBalance l) else none
  | .accountCode, l => do
    let (address, l) ← readBytes 20 l
    let (gas_left, l) ← readBE 8 l
    if l = [] then some (.accountCode address gas_left) else none
  | .accountCodeHash, l =>
    if l.length = 20 then some (.accountCodehash l) else none
  | .addPages, l =>
    if l.length = 2 then some (.addPages (beVal l)) else none
  | .captureHostio, l => do
    let (start_ink, l) ← readBE 8 l
    let (end_ink, l) ← readBE 8 l
    let (len_name, l) ← readBE 2 l
    let (len_args, l) ← readBE 2 l
    let (len_outs, l) ← readBE 2 l
    let (name, l) ← readBytes len_name l
    let (args, l) ← readBytes len_args l
    let (outs, l) ← readBytes len_outs l
    if l = [] then some (.captureHostio name args outs start_ink end_ink)
    else none

/-- Typing side conditions of a request's arguments: fixed-width fields have
their wire width, and integer fields fit the machine type the source gives
them (`u64` gas and ink counters, `u32` topic count, `u16` page count). For
`captureHostio` the three blob lengths must fit the `u16` length prefixes. -/
def wellFormedRequest : EvmRequest → Prop
  | .getBytes32 key => key.length = 32
  | .setTrieSlots gas_left pairs =>
    gas_left < 2 ^ 64 ∧
      ∀ p ∈ pairs, p.1.length = 32 ∧ p.2.length = 32
  | .contractCall contract _ gas value =>
    contract.length = 20 ∧ value.length = 32 ∧ gas < 2 ^ 64
  | .delegateCall contract _ gas => contract.length = 20 ∧ gas < 2 ^ 64
  | .staticCall contract _ gas => contract.length = 20 ∧ gas < 2 ^ 64
  | .create1 _ endowment gas => endowment.length = 32 ∧ gas < 2 ^ 64
  | .create2 _ endowment salt gas =>
    endowment.length = 32 ∧ salt.length = 32 ∧ gas < 2 ^ 64
  | .emitLog _ topics => topics < 2 ^ 32
  | .accountBalance address => address.length = 20
  | .accountCode address gas_left => address.length = 20 ∧ gas_left < 2 ^ 64
  | .accountCodehash address => address.length = 20
  | .addPages pages => pages < 2 ^ 16
  | .captureHostio name args outs start_ink end_ink =>
    start_ink < 2 ^ 64 ∧ end_ink < 2 ^ 64 ∧ name.length < 2 ^ 16 ∧
      args.length < 2 ^ 16 ∧ outs.length < 2 ^ 16

/-! ## Concrete fixtures for witnesses and counterexamples -/

/-- A concrete 32-byte key. -/
def k0 : Bytes32 := List.replicate 32 1

/-- A concrete 32-byte value. -/
def v0 : Bytes32 := List.replicate 32 2

/-- A second concrete 32-byte value. -/
def v1 : Bytes32 := List.replicate 32 4

/-- A concrete 20-byte address. -/
def a0 : Bytes20 := List.replicate 20 9

/-- A second, distinct concrete 20-byte address. -/
def a1 : Bytes20 := List.replicate 20 8

/-- Handler answering every request with a success status byte and cost 5. -/
def H0 : RequestHandler Unit Unit := constHandler [0] () 5

/-- Handler answering every request with the 32-byte value `v0` and cost 3. -/
def Hval : RequestHandler Unit Unit := constHandler v0 () 3

/-- Handler answering every request with the empty byte string. -/
def Hempty : RequestHandler Unit Unit := constHandler [] () 7

/-- Response function for the recording handler: success byte, cost 5. -/
def fOk : EvmApiMethod → Bytes → Bytes × Unit × Nat := fun _ _ => ([0], (), 5)

/-- Response function for the recording handler: 32-byte value, cost 3. -/
def fVal : EvmApiMethod → Bytes → Bytes × Unit × Nat := fun _ _ => (v0, (), 3)

/-- A concrete orchestrator state holding one dirty slot (`known` absent). -/
def st0 : EvmApiRequestor Unit Unit := ⟨(), none, none, ⟨[(k0, ⟨v0, none⟩)]⟩⟩

/-- The same one-dirty-slot state under the recording handler. -/
def stSpy0 : EvmApiRequestor (List (EvmApiMethod × Bytes)) Unit :=
  ⟨[], none, none, ⟨[(k0, ⟨v0, none⟩)]⟩⟩

/-- An empty-cache state under the recording handler. -/
def stSpyEmpty : EvmApiRequestor (List (EvmApiMethod × Bytes)) Unit :=
  ⟨[], none, none, ⟨[]⟩⟩

/-- Expected post-state of a non-clearing flush of `stSpy0` at gas 7. -/
def stSpy0flush : EvmApiRequestor (List (EvmApiMethod × Bytes)) Unit :=
  ⟨[(.setTrieSlots, beBytes 8 7 ++ (k0 ++ (v0 ++ [])))], none, none,
   ⟨[(k0, ⟨v0, some v0⟩)]⟩⟩

/-- An empty orchestrator over the trivial handler state. -/
def stEmptyU : EvmApiRequestor Unit Unit := ⟨(), none, none, ⟨[]⟩⟩

/-- A one-slot state whose record is clean (`known = Some(value)`). -/
def stClean0 : EvmApiRequestor Unit Unit :=
  ⟨(), none, none, ⟨[(k0, ⟨v0, some v0⟩)]⟩⟩

/-- State holding a cached code handle for `a0`. -/
def stSpyCode : EvmApiRequestor (List (EvmApiMethod × Bytes)) Unit :=
  ⟨[], some (a0, ()), none, ⟨[]⟩⟩

/-- Expected post-state of a `contract_call` of `a0` from `stSpyEmpty`. -/
def stCall1 : EvmApiRequestor (List (EvmApiMethod × Bytes)) Unit :=
  ⟨[(.contractCall, a0 ++ v0 ++ beBytes 8 9 ++ [7])], none, some (), ⟨[]⟩⟩

/-- Expected post-state of a `delegate_call` of `a0` from `stSpyEmpty`. -/
def stCall2 : EvmApiRequestor (List (EvmApiMethod × Bytes)) Unit :=
  ⟨[(.delegateCall, a0 ++ bytes32Zero ++ beBytes 8 9 ++ [7])], none, some (),
   ⟨[]⟩⟩

/-- Expected post-state of a `static_call` of `a0` from `stSpyEmpty`. -/
def stCall3 : EvmApiRequestor (List (EvmApiMethod × Bytes)) Unit :=
  ⟨[(.staticCall, a0 ++ bytes32Zero ++ beBytes 8 9 ++ [7])], none, some (),
   ⟨[]⟩⟩

/-! ## Byte-level lemmas -/

/-- A `w`-byte big-endian encoding has length `w`. -/
theorem beBytes_length (w n : Nat) : (beBytes w n).length = w := by
  induction w generalizing n with
  | zero => rfl
  | succ w ih => simp [beBytes, ih]

/-- Appending one byte multiplies the accumulated value by 256. -/
theorem beVal_append_singleton (l : Bytes) (b : Nat) :
    beVal (l ++ [b]) = beVal l * 256 + b := by
  simp [beVal, List.foldl_append]

/-- Decoding a `w`-byte big-endian encoding recovers the value modulo
`256 ^ w`. -/
theorem beVal_beBytes (w n : Nat) : beVal (beBytes w n) = n % 256 ^ w := by
  induction w generalizing n with
  | zero => simp [beBytes, beVal, Nat.mod_one]
  | succ w ih =>
    rw [beBytes, beVal_append_singleton, ih]
    rw [pow_succ, mul_comm (256 ^ w) 256, Nat.mod_mul]
    ring

/-- Taking exactly the length of the left part of an append yields it. -/
theorem take_append_exact (l₁ l₂ : Bytes) (n : Nat) (h : l₁.length = n) :
    (l₁ ++ l₂).take n = l₁ := by
  subst h; exact List.take_left l₁ l₂

/-- Dropping exactly the length of the left part of an append yields the
right part. -/
theorem drop_append_exact (l₁ l₂ : Bytes) (n : Nat) (h : l₁.length = n) :
    (l₁ ++ l₂).drop n = l₂ := by
  subst h; exact List.drop_left l₁ l₂

/-- Reading `n` raw bytes off `l₁ ++ l₂` with `l₁.length = n` returns `l₁`. -/
theorem readBytes_append (l₁ l₂ : Bytes) (n : Nat) (h : l₁.length = n) :
    readBytes n (l₁ ++ l₂) = some (l₁, l₂) := by
  rw [readBytes, if_pos (by simp [← h]),
    take_append_exact l₁ l₂ n h, drop_append_exact l₁ l₂ n h]

/-- Reading zero raw bytes consumes nothing. -/
theorem readBytes_zero (l : Bytes) : readBytes 0 l = some ([], l) := by
  simp [readBytes]

/-- Reading a `w`-byte big-endian field off its encoding followed by anything
returns the encoded value modulo `256 ^ w`. -/
theorem readBE_append (w n : Nat) (rest : Bytes) :
    readBE w (beBytes w n ++ rest) = some (n % 256 ^ w, rest) := by
  rw [readBE, if_pos (by simp [beBytes_length]),
    take_append_exact _ _ _ (beBytes_length w n),
    drop_append_exact _ _ _ (beBytes_length w n), beVal_beBytes]

/-- Reading a `w`-byte big-endian field below `256 ^ w` is exact. -/
theorem readBE_append_of_lt (w n : Nat) (rest : Bytes) (h : n < 256 ^ w) :
    readBE w (beBytes w n ++ rest) = some (n, rest) := by
  rw [readBE_append, Nat.mod_eq_of_lt h]

/-- Saturating addition agrees with addition below the 64-bit bound. -/
theorem saturatingAdd_eq_add (a b : Nat) (h : a + b < 2 ^ 64) :
    saturatingAdd a b = a + b := by
  unfold saturatingAdd; omega

/-- Splitting the pair bytes of a well-sized pair list recovers the list. -/
theorem decodeSlotPairs_pairsBytes (ps : List (Bytes32 × Bytes32))
    (h : ∀ p ∈ ps, p.1.length = 32 ∧ p.2.length = 32) :
    decodeSlotPairs (pairsBytes ps) = some ps := by
  induction ps with
  | nil => simp [decodeSlotPairs, pairsBytes]
  | cons p rest ih =>
    obtain ⟨k, v⟩ := p
    have hk : k.length = 32 := (h (k, v) (by simp)).1
    have hv : v.length = 32 := (h (k, v) (by simp)).2
    have hrest : ∀ q ∈ rest, q.1.length = 32 ∧ q.2.length = 32 :=
      fun q hq => h q (by simp [hq])
    have hbody : pairsBytes ((k, v) :: rest) = k ++ (v ++ pairsBytes rest) := by
      simp [pairsBytes]
    have hlen : (k ++ (v ++ pairsBytes rest)).length =
        64 + (pairsBytes rest).length := by
      simp [hk, hv]; omega
    rw [decodeSlotPairs, hbody]
    rw [if_neg (by intro hempty; rw [hempty] at hlen; simp at hlen; omega)]
    rw [if_pos (by rw [hlen]; omega)]
    have hdrop64 : (k ++ (v ++ pairsBytes rest)).drop 64 = pairsBytes rest := by
      have h1 : (k ++ (v ++ pairsBytes rest)).drop 32 = v ++ pairsBytes rest :=
        drop_append_exact _ _ _ hk
      have h64 : (64 : Nat) = 32 + 32 := by norm_num
      rw [h64, ← List.drop_drop, h1, drop_append_exact _ _ _ hv]
    have htake32 : (k ++ (v ++ pairsBytes rest)).take 32 = k :=
      take_append_exact _ _ _ hk
    have hdrop32take : ((k ++ (v ++ pairsBytes rest)).drop 32).take 32 = v := by
      rw [drop_append_exact _ _ _ hk]; exact take_append_exact _ _ _ hv
    rw [hdrop64, ih hrest, htake32, hdrop32take]
    rfl

/-! ## Storage-cache lemmas -/

/-- The dirty pairs are exactly the dirty records, filtered in order. -/
theorem dirtySlotPairs_eq_filter_map (slots : List (Bytes32 × StorageWord)) :
    dirtySlotPairs slots =
      (slots.filter (fun kw => kw.2.dirty)).map (fun kw => (kw.1, kw.2.value)) := by
  induction slots with
  | nil => rfl
  | cons kw rest ih =>
    obtain ⟨k, w⟩ := kw
    by_cases hd : w.dirty <;> simp [dirtySlotPairs, List.filter_cons, hd, ih]

/-- The payload bytes emitted by the flush loop are the concatenated
`key ++ value` pairs of the dirty records, in iteration order. -/
theorem flushSlots_fst (slots : List (Bytes32 × StorageWord)) :
    (flushSlots slots).1 = pairsBytes (dirtySlotPairs slots) := by
  induction slots with
  | nil => rfl
  | cons kw rest ih =>
    obtain ⟨k, w⟩ := kw
    by_cases hd : w.dirty <;>
      simp [flushSlots, dirtySlotPairs, pairsBytes, hd, ih]

/-- The slots left behind by the flush loop are the input slots with every
dirty record marked clean. -/
theorem flushSlots_snd (slots : List (Bytes32 × StorageWord)) :
    (flushSlots slots).2 = markClean slots := by
  induction slots with
  | nil => rfl
  | cons kw rest ih =>
    obtain ⟨k, w⟩ := kw
    by_cases hd : w.dirty <;> simp [flushSlots, markClean, hd, ih]

/-- When no record is dirty, the flush loop emits no pair bytes. -/
theorem dirtySlotPairs_of_clean (slots : List (Bytes32 × StorageWord))
    (h : ∀ kw ∈ slots, kw.2.dirty = false) : dirtySlotPairs slots = [] := by
  induction slots with
  | nil => rfl
  | cons kw rest ih =>
    obtain ⟨k, w⟩ := kw
    have hw : w.dirty = false := h (k, w) (by simp)
    simp [dirtySlotPairs, hw]
    exact ih (fun q hq => h q (by simp [hq]))

/-- Lookup commutes with marking clean. -/
theorem lookupSlot_markClean (slots : List (Bytes32 × StorageWord))
    (key : Bytes32) :
    lookupSlot (markClean slots) key =
      (lookupSlot slots key).map (fun w =>
        if w.dirty then { w with known := some w.value } else w) := by
  induction slots with
  | nil => rfl
  | cons kw rest ih =>
    obtain ⟨k, w⟩ := kw
    by_cases hk : k = key <;> by_cases hd : w.dirty <;>
      simp [markClean, lookupSlot, hk, hd, ih]

/-- Lookup after the `Entry` update of `cache_bytes32`: the record for the
written key exists, holds the written value, and keeps its previous `known`
(absent for a fresh record); other keys are untouched. -/
theorem lookupSlot_setSlot (slots : List (Bytes32 × StorageWord))
    (key value : Bytes32) :
    lookupSlot (setSlot slots key value) key =
      some (match lookupSlot slots key with
            | some w => { w with value := value }
            | none => StorageWord.unknownOf value) := by
  induction slots with
  | nil => simp [setSlot, lookupSlot]
  | cons kw rest ih =>
    obtain ⟨k, w⟩ := kw
    by_cases hk : k = key <;> simp [setSlot, lookupSlot, hk, ih]

/-! ## Flush run lemmas -/

/-- Dissection of a flush run that returned: the final state is the input
state with the handler advanced by exactly one `setTrieSlots` request whose
payload is the 8-byte big-endian gas followed by the dirty pair bytes, and
with the cache either emptied (`clear`) or marked clean — in either case the
cache update is independent of the handler's response. -/
theorem flush_state_eq (H : RequestHandler S D) (st : EvmApiRequestor S D)
    (clear : Bool) (gas_left : Nat) (r : Except Bytes Nat)
    (st' : EvmApiRequestor S D)
    (h : st.flush_storage_cache H clear gas_left = some (r, st')) :
    st' = { st with
      handler := (H.handle_request st.handler .setTrieSlots
        (beBytes 8 gas_left ++
          pairsBytes (dirtySlotPairs st.storage_cache.slots))).2,
      storage_cache :=
        ⟨if clear then [] else markClean st.storage_cache.slots⟩ } := by
  unfold EvmApiRequestor.flush_storage_cache EvmApiRequestor.handle_request at h
  simp only [flushSlots_fst, flushSlots_snd] at h
  rcases hres : (H.handle_request st.handler .setTrieSlots
      (beBytes 8 gas_left ++
        pairsBytes (dirtySlotPairs st.storage_cache.slots))).1.1.head?
    with _ | b
  · rw [hres] at h; simp at h
  · rw [hres] at h
    simp only [] at h
    split_ifs at h ⊢ <;>
      (simp only [Option.some.injEq, Prod.mk.injEq] at h; exact h.2.symm)

/-! ## Recording-handler lemma -/

/-- One step of the recording handler: the response comes from `f` and the
`(tag, payload)` pair is appended to the log. -/
theorem spy_handle_request (f : EvmApiMethod → Bytes → Bytes × D × Nat)
    (s : List (EvmApiMethod × Bytes)) (ty : EvmApiMethod) (data : Bytes) :
    (spy f).handle_request s ty data = (f ty data, s ++ [(ty, data)]) := rfl

/-! ## Claim C2 -/

/-- C2: whenever `flush_storage_cache` returns — with result `r` either
success or error — every dirty record has been marked clean (`known :=
value`) as part of building the payload, and with `clear = true` the cache
has been emptied entirely; the resulting cache does not depend on the
handler's response, reflecting that both updates happen before the flush
request is submitted. -/
theorem spec_C2_flush_cache_update (H : RequestHandler S D)
    (st : EvmApiRequestor S D) (clear : Bool) (gas_left : Nat)
    (r : Except Bytes Nat) (st' : EvmApiRequestor S D)
    (h : st.flush_storage_cache H clear gas_left = some (r, st')) :
    st'.storage_cache.slots =
      (if clear then [] else markClean st.storage_cache.slots) := by
  rw [flush_state_eq H st clear gas_left r st' h]

/-- Witness for C2: a concrete one-dirty-slot cache flushed with
`clear = true` under a success response leaves an empty cache. -/
theorem spec_C2_witness :
    st0.flush_storage_cache H0 true 7 =
      some (.ok 5, (⟨(), none, none, ⟨[]⟩⟩ : EvmApiRequestor Unit Unit)) ∧
    (⟨(), none, none, ⟨[]⟩⟩ : EvmApiRequestor Unit Unit).storage_cache.slots =
      (if true then [] else markClean st0.storage_cache.slots) :=
  ⟨by rfl, spec_C2_flush_cache_update H0 st0 true 7 (.ok 5) _ (by rfl)⟩

/-! ## Claim C3 -/

/-- C3: the flush request payload is the 8-byte big-endian `gas_left`
followed by the 64-byte `(key, value)` pair of every currently dirty record,
in cache iteration order; in particular, when no record is dirty the payload
is exactly the 8 gas bytes and no per-key bytes are sent. Stated through the
recording handler: the submitted request is observed in the handler log. -/
theorem spec_C3_flush_payload (f : EvmApiMethod → Bytes → Bytes × D × Nat)
    (st : EvmApiRequestor (List (EvmApiMethod × Bytes)) D) (clear : Bool)
    (gas_left : Nat) (r : Except Bytes Nat)
    (st' : EvmApiRequestor (List (EvmApiMethod × Bytes)) D)
    (h : st.flush_storage_cache (spy f) clear gas_left = some (r, st')) :
    st'.handler = st.handler ++ [(.setTrieSlots,
      beBytes 8 gas_left ++
        pairsBytes ((st.storage_cache.slots.filter (fun kw => kw.2.dirty)).map
          (fun kw => (kw.1, kw.2.value))))] ∧
    ((∀ kw ∈ st.storage_cache.slots, kw.2.dirty = false) →
      st'.handler = st.handler ++ [(.setTrieSlots, beBytes 8 gas_left)]) := by
  have he := flush_state_eq (spy f) st clear gas_left r st' h
  constructor
  · rw [he, ← dirtySlotPairs_eq_filter_map]
    rfl
  · intro hclean
    rw [he]
    show st.handler ++ [(.setTrieSlots,
      beBytes 8 gas_left ++ pairsBytes (dirtySlotPairs st.storage_cache.slots))] = _
    rw [dirtySlotPairs_of_clean _ hclean]
    simp [pairsBytes]

/-- Witness for C3: flushing a concrete one-dirty-slot cache logs exactly one
`setTrieSlots` request with the 8 gas bytes followed by that slot's 64-byte
pair. -/
theorem spec_C3_witness :
    stSpy0.flush_storage_cache (spy fOk) false 7 = some (.ok 5, stSpy0flush) ∧
    stSpy0flush.handler = stSpy0.handler ++ [(.setTrieSlots,
      beBytes 8 7 ++
        pairsBytes ((stSpy0.storage_cache.slots.filter (fun kw => kw.2.dirty)).map
          (fun kw => (kw.1, kw.2.value))))] :=
  ⟨by rfl,
   (spec_C3_flush_payload fOk stSpy0 false 7 (.ok 5) stSpy0flush (by rfl)).1⟩

/-! ## Storage-read run lemmas -/

/-- A cache hit of `get_bytes32`: the cached value at the fixed read cost,
with the whole orchestrator state (handler included) unchanged — no request
is issued. -/
theorem get_bytes32_run_hit (H : RequestHandler S D)
    (st : EvmApiRequestor S D) (key : Bytes32) (w : StorageWord)
    (hhit : lookupSlot st.storage_cache.slots key = some w) :
    st.get_bytes32 H key = some ((w.value, READ_GAS), st) := by
  unfold EvmApiRequestor.get_bytes32
  rw [hhit]
  rfl

/-- A cache miss of `get_bytes32`: one `getBytes32` request whose payload is
exactly the key; when the response has 32 bytes, the record
`StorageWord::known(fetched)` is appended and the cost is the read cost plus
the request gas plus `EVM_API_INK` (saturating); otherwise the unwrap panics. -/
theorem get_bytes32_run_miss (H : RequestHandler S D)
    (st : EvmApiRequestor S D) (key : Bytes32)
    (hmiss : lookupSlot st.storage_cache.slots key = none) :
    st.get_bytes32 H key =
      (if (H.handle_request st.handler .getBytes32 key).1.1.length = 32 then
        some (((H.handle_request st.handler .getBytes32 key).1.1,
            saturatingAdd
              (saturatingAdd READ_GAS
                (H.handle_request st.handler .getBytes32 key).1.2.2)
              EVM_API_INK),
          { st with
              handler := (H.handle_request st.handler .getBytes32 key).2,
              storage_cache := ⟨st.storage_cache.slots ++
                [(key, StorageWord.knownOf
                  (H.handle_request st.handler .getBytes32 key).1.1)]⟩ })
      else none) := by
  unfold EvmApiRequestor.get_bytes32 EvmApiRequestor.handle_request
  rw [hmiss]
  rfl

/-- Appending a record for a key that is absent makes lookup find it. -/
theorem lookupSlot_append_self (slots : List (Bytes32 × StorageWord))
    (key : Bytes32) (w : StorageWord)
    (hmiss : lookupSlot slots key = none) :
    lookupSlot (slots ++ [(key, w)]) key = some w := by
  induction slots with
  | nil => simp [lookupSlot]
  | cons kw rest ih =>
    obtain ⟨k, w'⟩ := kw
    by_cases hk : k = key
    · rw [hk] at hmiss ⊢; simp [lookupSlot] at hmiss
    · simp only [lookupSlot, List.cons_append, if_neg hk] at hmiss ⊢
      exact ih hmiss

/-! ## Claim C1 -/

/-- C1 (amended): after a `cache_bytes32` (set) of a key the record holds the
written value and is dirty unless the pre-existing record's `known` already
equals the written value (a fresh record, `known` absent, is always dirty);
after a `get_bytes32` miss the inserted record is clean
(`known = Some(fetched) = value`); and after a `flush_storage_cache` call
without clearing that returns success and whose payload included the key (the
record was dirty), the record is clean. -/
theorem spec_C1_dirty_lifecycle (H : RequestHandler S D)
    (st : EvmApiRequestor S D) (key : Bytes32) :
    (∀ value, ∃ w',
      lookupSlot (st.cache_bytes32 key value).2.storage_cache.slots key =
        some w' ∧
      w'.value = value ∧
      (w'.dirty = false ↔
        ∃ w, lookupSlot st.storage_cache.slots key = some w ∧
          w.known = some value)) ∧
    (∀ v c st', lookupSlot st.storage_cache.slots key = none →
      st.get_bytes32 H key = some ((v, c), st') →
      ∃ w', lookupSlot st'.storage_cache.slots key = some w' ∧
        w'.dirty = false) ∧
    (∀ w gas cost st', lookupSlot st.storage_cache.slots key = some w →
      w.dirty = true →
      st.flush_storage_cache H false gas = some (.ok cost, st') →
      ∃ w', lookupSlot st'.storage_cache.slots key = some w' ∧
        w'.dirty = false ∧ w'.value = w.value) := by
  refine ⟨?_, ?_, ?_⟩
  · intro value
    refine ⟨_, lookupSlot_setSlot st.storage_cache.slots key value, ?_, ?_⟩
    · cases hold : lookupSlot st.storage_cache.slots key <;>
        simp [hold, StorageWord.unknownOf]
    · cases hold : lookupSlot st.storage_cache.slots key with
      | none => simp [hold, StorageWord.unknownOf, StorageWord.dirty]
      | some w => simp [hold, StorageWord.dirty]
  · intro v c st' hmiss hrun
    rw [get_bytes32_run_miss H st key hmiss] at hrun
    by_cases h32 : (H.handle_request st.handler .getBytes32 key).1.1.length = 32
    · rw [if_pos h32] at hrun
      simp only [Option.some.injEq, Prod.mk.injEq] at hrun
      obtain ⟨⟨hv, hc⟩, hst⟩ := hrun
      refine ⟨StorageWord.knownOf v, ?_, by simp [StorageWord.knownOf,
        StorageWord.dirty]⟩
      rw [← hst]
      show lookupSlot (st.storage_cache.slots ++
        [(key, StorageWord.knownOf
          (H.handle_request st.handler .getBytes32 key).1.1)]) key = _
      rw [hv]
      exact lookupSlot_append_self _ _ _ hmiss
    · rw [if_neg h32] at hrun
      simp at hrun
  · intro w gas cost st' hsome hdirty hrun
    have he := flush_state_eq H st false gas (.ok cost) st' hrun
    refine ⟨⟨w.value, some w.value⟩, ?_, by simp [StorageWord.dirty], rfl⟩
    rw [he]
    show lookupSlot (if false = true then [] else
      markClean st.storage_cache.slots) key = _
    rw [if_neg (by simp), lookupSlot_markClean, hsome]
    simp [hdirty]

/-- Witness for C1: the three parts at concrete inputs — a set of a fresh key
yields a dirty record, a concrete get miss yields a clean record, and a
successful non-clearing flush of a dirty record leaves it clean. -/
theorem spec_C1_witness :
    (∃ w', lookupSlot (st0.cache_bytes32 k0 v1).2.storage_cache.slots k0 =
        some w' ∧ w'.value = v1 ∧
      (w'.dirty = false ↔
        ∃ w, lookupSlot st0.storage_cache.slots k0 = some w ∧
          w.known = some v1)) ∧
    (∃ w', lookupSlot stClean0.storage_cache.slots k0 = some w' ∧
      w'.dirty = false) ∧
    (∃ w', lookupSlot stClean0.storage_cache.slots k0 = some w' ∧
      w'.dirty = false ∧ w'.value = (⟨v0, none⟩ : StorageWord).value) :=
  ⟨(spec_C1_dirty_lifecycle Hval st0 k0).1 v1,
   (spec_C1_dirty_lifecycle Hval stEmptyU k0).2.1 v0 133 stClean0
     (by rfl) (by rfl),
   (spec_C1_dirty_lifecycle H0 st0 k0).2.2 ⟨v0, none⟩ 7 5 stClean0
     (by rfl) (by rfl) (by rfl)⟩

/-- Counterexample to C1 as stated: immediately after a `get_bytes32` miss
the inserted record has `known = Some(fetched) = value`, so its dirty
predicate is false — the claim asserts it holds. -/
theorem spec_C1_counterexample :
    stEmptyU.get_bytes32 Hval k0 = some ((v0, 133), stClean0) ∧
    lookupSlot stClean0.storage_cache.slots k0 = some ⟨v0, some v0⟩ ∧
    (⟨v0, some v0⟩ : StorageWord).dirty = false :=
  ⟨by rfl, by rfl, by rfl⟩

/-! ## Claim C4 -/

/-- C4: on a cache hit `get_bytes32` returns the cached value at the fixed
read cost with the whole orchestrator state unchanged — no request is issued;
on a miss it issues one storage-get request carrying exactly the 32-byte key,
inserts a record with `known = Some(fetched)` and `value = fetched`, and
returns the fetched value at a cost of read cost plus the request's gas cost
plus the fixed per-access overhead `EVM_API_INK` (the code adds with 64-bit
saturation, so the sum is stated below the saturation bound). -/
theorem spec_C4_get_bytes32 (f : EvmApiMethod → Bytes → Bytes × D × Nat)
    (st : EvmApiRequestor (List (EvmApiMethod × Bytes)) D) (key : Bytes32)
    (hkey : key.length = 32) :
    (∀ w, lookupSlot st.storage_cache.slots key = some w →
      st.get_bytes32 (spy f) key = some ((w.value, READ_GAS), st)) ∧
    (∀ res d gas, lookupSlot st.storage_cache.slots key = none →
      f .getBytes32 key = (res, d, gas) →
      res.length = 32 →
      READ_GAS + gas + EVM_API_INK < 2 ^ 64 →
      st.get_bytes32 (spy f) key =
        some ((res, READ_GAS + gas + EVM_API_INK),
          { st with
              handler := st.handler ++ [(.getBytes32, key)],
              storage_cache := ⟨st.storage_cache.slots ++
                [(key, ⟨res, some res⟩)]⟩ })) := by
  constructor
  · intro w hw
    exact get_bytes32_run_hit (spy f) st key w hw
  · intro res d gas hmiss hf h32 hbound
    rw [get_bytes32_run_miss (spy f) st key hmiss]
    rw [spy_handle_request f st.handler .getBytes32 key, hf]
    simp only []
    rw [if_pos h32]
    rw [saturatingAdd_eq_add READ_GAS gas (by omega),
      saturatingAdd_eq_add (READ_GAS + gas) EVM_API_INK (by omega)]
    rfl

/-- Witness for C4: a hit on a concrete one-slot cache costs `READ_GAS` and
leaves the state untouched; a miss on an empty cache logs one `getBytes32`
request with the key as payload, inserts the clean fetched record and costs
`READ_GAS + 3 + EVM_API_INK`. -/
theorem spec_C4_witness :
    (stSpy0.get_bytes32 (spy fVal) k0 = some ((v0, READ_GAS), stSpy0)) ∧
    (stSpyEmpty.get_bytes32 (spy fVal) k0 =
      some ((v0, READ_GAS + 3 + EVM_API_INK),
        { stSpyEmpty with
            handler := stSpyEmpty.handler ++ [(.getBytes32, k0)],
            storage_cache := ⟨stSpyEmpty.storage_cache.slots ++
              [(k0, ⟨v0, some v0⟩)]⟩ })) :=
  ⟨(spec_C4_get_bytes32 fVal stSpy0 k0 (by rfl)).1 ⟨v0, none⟩ (by rfl),
   (spec_C4_get_bytes32 fVal stSpyEmpty k0 (by rfl)).2 v0 () 3 (by rfl)
     (by rfl) (by rfl) (by decide)⟩

/-! ## Call run lemmas -/

/-- Dissection of a call run that returned: the final state is the input
state with the handler advanced by one request under the call's tag whose
payload is `contract ++ value ++ gas(8 BE) ++ input`, and with the response's
data handle stored as last return data. -/
theorem call_request_state_eq (H : RequestHandler S D) (R : DataReader D)
    (st : EvmApiRequestor S D) (ty : EvmApiMethod) (contract : Bytes20)
    (input : Bytes) (gas : Nat) (value : Bytes32)
    (r : Nat × Nat × UserOutcomeKind) (st' : EvmApiRequestor S D)
    (h : st.call_request H R ty contract input gas value = some (r, st')) :
    st' = { st with
      handler := (H.handle_request st.handler ty
        (contract ++ value ++ beBytes 8 gas ++ input)).2,
      last_return_data := some (H.handle_request st.handler ty
        (contract ++ value ++ beBytes 8 gas ++ input)).1.2.1 } := by
  unfold EvmApiRequestor.call_request EvmApiRequestor.handle_request at h
  simp only [] at h
  rcases hres : (H.handle_request st.handler ty
      (contract ++ value ++ beBytes 8 gas ++ input)).1.1.head? with _ | b
  · rw [hres] at h; simp at h
  · rw [hres] at h
    simp only [] at h
    rcases hud : UserOutcomeKind.fromByte b with _ | status
    · rw [hud] at h; simp at h
    · rw [hud] at h
      simp only [Option.some.injEq, Prod.mk.injEq] at h
      exact h.2.symm

/-! ## Claim C6 -/

/-- C6: each of the three call variants submits exactly one request whose
payload is the 20-byte target address, the 32-byte value word (the all-zero
word for the delegate and static variants), the gas as 8 big-endian bytes,
then the raw input — 20 + 32 + 8 + len(input) bytes in total. Stated through
the recording handler. -/
theorem spec_C6_call_payloads (f : EvmApiMethod → Bytes → Bytes × D × Nat)
    (R : DataReader D) (st : EvmApiRequestor (List (EvmApiMethod × Bytes)) D)
    (contract : Bytes20) (input : Bytes) (gas : Nat) (value : Bytes32)
    (r₁ r₂ r₃ : Nat × Nat × UserOutcomeKind)
    (st₁ st₂ st₃ : EvmApiRequestor (List (EvmApiMethod × Bytes)) D)
    (hc : contract.length = 20) (hv : value.length = 32)
    (h₁ : st.contract_call (spy f) R contract input gas value = some (r₁, st₁))
    (h₂ : st.delegate_call (spy f) R contract input gas = some (r₂, st₂))
    (h₃ : st.static_call (spy f) R contract input gas = some (r₃, st₃)) :
    (st₁.handler = st.handler ++ [(.contractCall,
        contract ++ value ++ beBytes 8 gas ++ input)] ∧
      (contract ++ value ++ beBytes 8 gas ++ input).length =
        20 + 32 + 8 + input.length) ∧
    (st₂.handler = st.handler ++ [(.delegateCall,
        contract ++ bytes32Zero ++ beBytes 8 gas ++ input)] ∧
      (contract ++ bytes32Zero ++ beBytes 8 gas ++ input).length =
        20 + 32 + 8 + input.length) ∧
    (st₃.handler = st.handler ++ [(.staticCall,
        contract ++ bytes32Zero ++ beBytes 8 gas ++ input)] ∧
      (contract ++ bytes32Zero ++ beBytes 8 gas ++ input).length =
        20 + 32 + 8 + input.length) := by
  refine ⟨⟨?_, ?_⟩, ⟨?_, ?_⟩, ⟨?_, ?_⟩⟩
  · rw [call_request_state_eq (spy f) R st .contractCall contract input gas
      value r₁ st₁ h₁]
    rfl
  · simp [hc, hv, beBytes_length]; omega
  · rw [call_request_state_eq (spy f) R st .delegateCall contract input gas
      bytes32Zero r₂ st₂ h₂]
    rfl
  · simp [hc, bytes32Zero, beBytes_length]; omega
  · rw [call_request_state_eq (spy f) R st .staticCall contract input gas
      bytes32Zero r₃ st₃ h₃]
    rfl
  · simp [hc, bytes32Zero, beBytes_length]; omega

/-- Witness for C6: the three call variants run concretely from an empty
state; each logs exactly its 61-byte payload (20 + 32 + 8 + 1). -/
theorem spec_C6_witness :
    ((stCall1.handler = stSpyEmpty.handler ++ [(.contractCall,
        a0 ++ v0 ++ beBytes 8 9 ++ [7])] ∧
      (a0 ++ v0 ++ beBytes 8 9 ++ [7]).length = 20 + 32 + 8 + [7].length) ∧
    (stCall2.handler = stSpyEmpty.handler ++ [(.delegateCall,
        a0 ++ bytes32Zero ++ beBytes 8 9 ++ [7])] ∧
      (a0 ++ bytes32Zero ++ beBytes 8 9 ++ [7]).length =
        20 + 32 + 8 + [7].length) ∧
    (stCall3.handler = stSpyEmpty.handler ++ [(.staticCall,
        a0 ++ bytes32Zero ++ beBytes 8 9 ++ [7])] ∧
      (a0 ++ bytes32Zero ++ beBytes 8 9 ++ [7]).length =
        20 + 32 + 8 + [7].length)) :=
  spec_C6_call_payloads fOk unitReader stSpyEmpty a0 [7] 9 v0
    (0, 5, .Success) (0, 5, .Success) (0, 5, .Success) stCall1 stCall2 stCall3
    (by rfl) (by rfl) (by rfl) (by rfl) (by rfl)

/-! ## Claim C5 -/

/-- C5 (amended): for both `create1` and `create2`, a create response of
exactly 21 bytes with a non-zero first byte is success carrying bytes 1..21
as the new address; any other response (wrong length or zero first byte) is a
failure whose message is the response with its first byte stripped when
present, decoded as UTF-8, with the fixed fallback string only when that
decoding fails — in particular an empty response yields a failure with an
empty message, since the empty byte string is valid UTF-8. The gas cost is
returned in every case. -/
theorem spec_C5_create_response (H : RequestHandler S D) (R : DataReader D)
    (st : EvmApiRequestor S D) (code : Bytes) (endowment salt : Bytes32)
    (gas : Nat) (res₁ res₂ : Bytes) (d₁ d₂ : D) (c₁ c₂ : Nat) (s₁ s₂ : S)
    (hf₁ : H.handle_request st.handler .create1
        (beBytes 8 gas ++ endowment ++ [] ++ code) = ((res₁, d₁, c₁), s₁))
    (hf₂ : H.handle_request st.handler .create2
        (beBytes 8 gas ++ endowment ++ salt ++ code) = ((res₂, d₂, c₂), s₂)) :
    (res₁.length = 21 → res₁.head? ≠ some 0 →
      (st.create1 H R code endowment gas).1 =
        (.ok res₁.tail, (R.slice d₁).length, c₁)) ∧
    ((res₁.length ≠ 21 ∨ res₁.head? = some 0) →
      (st.create1 H R code endowment gas).1 =
        (.error (if utf8Valid (if res₁ = [] then res₁ else res₁.tail) = true
                 then (if res₁ = [] then res₁ else res₁.tail)
                 else createResponseMalformed), 0, c₁)) ∧
    (res₁ = [] →
      (st.create1 H R code endowment gas).1 = (.error [], 0, c₁)) ∧
    (res₂.length = 21 → res₂.head? ≠ some 0 →
      (st.create2 H R code endowment salt gas).1 =
        (.ok res₂.tail, (R.slice d₂).length, c₂)) ∧
    ((res₂.length ≠ 21 ∨ res₂.head? = some 0) →
      (st.create2 H R code endowment salt gas).1 =
        (.error (if utf8Valid (if res₂ = [] then res₂ else res₂.tail) = true
                 then (if res₂ = [] then res₂ else res₂.tail)
                 else createResponseMalformed), 0, c₂)) ∧
    (res₂ = [] →
      (st.create2 H R code endowment salt gas).1 = (.error [], 0, c₂)) := by
  refine ⟨?_, ?_, ?_, ?_, ?_, ?_⟩
  · intro h21 hh
    unfold EvmApiRequestor.create1 EvmApiRequestor.create_request
      EvmApiRequestor.handle_request
    simp only []
    rw [hf₁]
    rw [if_neg (by simp [h21, hh])]
  · intro hcond
    unfold EvmApiRequestor.create1 EvmApiRequestor.create_request
      EvmApiRequestor.handle_request
    simp only []
    rw [hf₁]
    rw [if_pos hcond]
  · intro hres
    subst hres
    unfold EvmApiRequestor.create1 EvmApiRequestor.create_request
      EvmApiRequestor.handle_request
    simp only []
    rw [hf₁]
    rfl
  · intro h21 hh
    unfold EvmApiRequestor.create2 EvmApiRequestor.create_request
      EvmApiRequestor.handle_request
    simp only []
    rw [hf₂]
    rw [if_neg (by simp [h21, hh])]
  · intro hcond
    unfold EvmApiRequestor.create2 EvmApiRequestor.create_request
      EvmApiRequestor.handle_request
    simp only []
    rw [hf₂]
    rw [if_pos hcond]
  · intro hres
    subst hres
    unfold EvmApiRequestor.create2 EvmApiRequestor.create_request
      EvmApiRequestor.handle_request
    simp only []
    rw [hf₂]
    rfl

/-- Witness for C5: a concrete 21-byte response `1 :: a0` with non-zero first
byte yields success with the address `a0` and the response cost, for both
`create1` and `create2`. -/
theorem spec_C5_witness :
    ((stEmptyU.create1 (constHandler (1 :: a0) () 5) unitReader []
        bytes32Zero 0).1 =
      (.ok (1 :: a0).tail, (unitReader.slice ()).length, 5)) ∧
    ((stEmptyU.create2 (constHandler (1 :: a0) () 5) unitReader []
        bytes32Zero v0 0).1 =
      (.ok (1 :: a0).tail, (unitReader.slice ()).length, 5)) :=
  ⟨(spec_C5_create_response (constHandler (1 :: a0) () 5) unitReader stEmptyU
     [] bytes32Zero v0 0 (1 :: a0) (1 :: a0) () () 5 5 () ()
     (by rfl) (by rfl)).1 (by rfl) (by decide),
   (spec_C5_create_response (constHandler (1 :: a0) () 5) unitReader stEmptyU
     [] bytes32Zero v0 0 (1 :: a0) (1 :: a0) () () 5 5 () ()
     (by rfl) (by rfl)).2.2.2.1 (by rfl) (by decide)⟩

/-- Counterexample to C5 as stated: an empty create response — for `create1`
and likewise for `create2` — yields a failure whose message is the empty byte
string, since `String::from_utf8` succeeds on an empty vector, not the fixed
fallback string the claim asserts. -/
theorem spec_C5_counterexample :
    (stEmptyU.create1 Hempty unitReader [] bytes32Zero 0).1 =
      (.error [], 0, 7) ∧
    (stEmptyU.create2 Hempty unitReader [] bytes32Zero v0 0).1 =
      (.error [], 0, 7) ∧
    ([] : Bytes) ≠ createResponseMalformed :=
  ⟨by rfl, by rfl, by decide⟩

/-! ## Account-code run lemmas -/

/-- A hit of the single-entry code cache: the cached handle at cost 0, with
the whole state unchanged — no request is issued. -/
theorem account_code_run_hit (H : RequestHandler S D)
    (st : EvmApiRequestor S D) (address : Bytes20) (gas_left : Nat) (d : D)
    (hhit : st.last_code = some (address, d)) :
    st.account_code H address gas_left = ((d, 0), st) := by
  unfold EvmApiRequestor.account_code
  rw [hhit]
  simp

/-- A miss of the single-entry code cache (no entry, or an entry for a
different address): one `accountCode` request with payload
`address ++ gas_left(8 BE)`; the cache entry is replaced with the fetched
`(address, handle)` pair and the handle is returned at the response cost. -/
theorem account_code_run_miss (H : RequestHandler S D)
    (st : EvmApiRequestor S D) (address : Bytes20) (gas_left : Nat)
    (hmiss : ∀ a d, st.last_code = some (a, d) → address ≠ a) :
    st.account_code H address gas_left =
      (((H.handle_request st.handler .accountCode
          (address ++ beBytes 8 gas_left)).1.2.1,
        (H.handle_request st.handler .accountCode
          (address ++ beBytes 8 gas_left)).1.2.2),
       { st with
          handler := (H.handle_request st.handler .accountCode
            (address ++ beBytes 8 gas_left)).2,
          last_code := some (address,
            (H.handle_request st.handler .accountCode
              (address ++ beBytes 8 gas_left)).1.2.1) }) := by
  unfold EvmApiRequestor.account_code EvmApiRequestor.handle_request
  cases hlc : st.last_code with
  | none => rfl
  | some p =>
    obtain ⟨a, d⟩ := p
    simp only []
    rw [if_neg (hmiss a d hlc)]

/-! ## Claim C7 -/

/-- C7: `account_code` on a hit of the single-entry code cache returns the
cached handle at cost 0 without issuing a request (the state is unchanged);
on a miss it sends `address ++ gas_left(8 BE)`, replaces the single-entry
cache with the new `(address, handle)` pair and returns the fetched handle at
its cost; and a call with a distinct address evicts the cached one, so two
successive calls with a distinct then the original address both issue
requests. -/
theorem spec_C7_account_code (f : EvmApiMethod → Bytes → Bytes × D × Nat)
    (st : EvmApiRequestor (List (EvmApiMethod × Bytes)) D) :
    (∀ address gas_left d, st.last_code = some (address, d) →
      st.account_code (spy f) address gas_left = ((d, 0), st)) ∧
    (∀ address gas_left,
      (∀ a d, st.last_code = some (a, d) → address ≠ a) →
      st.account_code (spy f) address gas_left =
        (((f .accountCode (address ++ beBytes 8 gas_left)).2.1,
          (f .accountCode (address ++ beBytes 8 gas_left)).2.2),
         { st with
            handler := st.handler ++
              [(.accountCode, address ++ beBytes 8 gas_left)],
            last_code := some (address,
              (f .accountCode (address ++ beBytes 8 gas_left)).2.1) })) ∧
    (∀ a d b gas_left, st.last_code = some (a, d) → b ≠ a →
      ((st.account_code (spy f) b gas_left).2.account_code
          (spy f) a gas_left).2.handler =
        st.handler ++ [(.accountCode, b ++ beBytes 8 gas_left),
          (.accountCode, a ++ beBytes 8 gas_left)]) := by
  refine ⟨?_, ?_, ?_⟩
  · intro address gas_left d hhit
    exact account_code_run_hit (spy f) st address gas_left d hhit
  · intro address gas_left hmiss
    rw [account_code_run_miss (spy f) st address gas_left hmiss]
    rfl
  · intro a d b gas_left hlc hba
    rw [account_code_run_miss (spy f) st b gas_left
      (by intro a' d' h'; rw [hlc] at h'; injection h' with h''
          injection h'' with h1 h2; rw [← h1]; exact hba)]
    rw [account_code_run_miss (spy f) _ a gas_left
      (by intro a' d' h'
          simp only [Option.some.injEq, Prod.mk.injEq] at h'
          intro hcon
          exact hba (h'.1.trans hcon.symm))]
    simp [spy_handle_request]

/-- Witness for C7: a hit on the cached address costs 0 and leaves the state
unchanged; a miss logs one request with `address ++ gas(8 BE)` and caches the
pair; calling with a distinct then the original address issues two requests. -/
theorem spec_C7_witness :
    (stSpyCode.account_code (spy fVal) a0 5 = (((), 0), stSpyCode)) ∧
    (stSpyEmpty.account_code (spy fVal) a0 5 =
      (((fVal .accountCode (a0 ++ beBytes 8 5)).2.1,
        (fVal .accountCode (a0 ++ beBytes 8 5)).2.2),
       { stSpyEmpty with
          handler := stSpyEmpty.handler ++
            [(.accountCode, a0 ++ beBytes 8 5)],
          last_code := some (a0,
            (fVal .accountCode (a0 ++ beBytes 8 5)).2.1) })) ∧
    (((stSpyCode.account_code (spy fVal) a1 5).2.account_code
        (spy fVal) a0 5).2.handler =
      stSpyCode.handler ++ [(.accountCode, a1 ++ beBytes 8 5),
        (.accountCode, a0 ++ beBytes 8 5)]) :=
  ⟨(spec_C7_account_code fVal stSpyCode).1 a0 5 () (by rfl),
   (spec_C7_account_code fVal stSpyEmpty).2.1 a0 5
     (fun a d h => Option.noConfusion h),
   (spec_C7_account_code fVal stSpyCode).2.2 a0 () a1 5 (by rfl) (by decide)⟩

/-! ## Claim C8 -/

/-- C8: on a freshly constructed orchestrator `get_return_data` hits the
`expect` panic (modelled as `none`) because no call or create has stored a
handle; once the slot is populated it returns (a clone of) the most recently
stored handle, and a returning `contract_call` or a successful `create1`
stores the response's data handle there. -/
theorem spec_C8_return_data (H : RequestHandler S D) (R : DataReader D)
    (hS : S) :
    (EvmApiRequestor.get_return_data
      (EvmApiRequestor.new hS : EvmApiRequestor S D) = none) ∧
    (∀ st : EvmApiRequestor S D, ∀ d, st.last_return_data = some d →
      st.get_return_data = some d) ∧
    (∀ st : EvmApiRequestor S D, ∀ contract input gas value r st',
      st.contract_call H R contract input gas value = some (r, st') →
      st'.get_return_data = some (H.handle_request st.handler .contractCall
        (contract ++ value ++ beBytes 8 gas ++ input)).1.2.1) ∧
    (∀ st : EvmApiRequestor S D, ∀ code endowment gas res d c s',
      H.handle_request st.handler .create1
        (beBytes 8 gas ++ endowment ++ [] ++ code) = ((res, d, c), s') →
      res.length = 21 → res.head? ≠ some 0 →
      (st.create1 H R code endowment gas).2.get_return_data = some d) := by
  refine ⟨rfl, ?_, ?_, ?_⟩
  · intro st d h
    exact h
  · intro st contract input gas value r st' h
    rw [call_request_state_eq H R st .contractCall contract input gas value
      r st' h]
    rfl
  · intro st code endowment gas res d c s' hf h21 hh
    unfold EvmApiRequestor.create1 EvmApiRequestor.create_request
      EvmApiRequestor.handle_request
    simp only []
    rw [hf]
    rw [if_neg (by simp [h21, hh])]
    rfl

/-- Witness for C8: the fresh orchestrator panics; after a concrete
returning call the stored handle comes back. -/
theorem spec_C8_witness :
    (EvmApiRequestor.get_return_data
      (EvmApiRequestor.new () : EvmApiRequestor Unit Unit) = none) ∧
    (stCall1.get_return_data = some ()) ∧
    (stCall1.get_return_data =
      some ((spy fOk).handle_request stSpyEmpty.handler .contractCall
        (a0 ++ v0 ++ beBytes 8 9 ++ [7])).1.2.1) :=
  ⟨(spec_C8_return_data H0 unitReader ()).1,
   (spec_C8_return_data (spy fOk) unitReader []).2.1 stCall1 () (by rfl),
   (spec_C8_return_data (spy fOk) unitReader []).2.2.1 stSpyEmpty a0 [7] 9 v0
     (0, 5, .Success) stCall1 (by rfl)⟩

/-! ## Claim C10 -/

/-- C10: when the request primitive returns an empty response byte vector,
`call_request` (hence `contract_call`, `delegate_call`, `static_call`) and
`flush_storage_cache` hit the `res[0]` indexing panic (modelled as `none`)
instead of returning an outcome or a recoverable error; their first-byte
inspection is total for non-empty responses (the flush then returns). -/
theorem spec_C10_empty_response (H : RequestHandler S D) (R : DataReader D)
    (st : EvmApiRequestor S D) :
    (∀ ty contract input gas value,
      (H.handle_request st.handler ty
        (contract ++ value ++ beBytes 8 gas ++ input)).1.1 = [] →
      st.call_request H R ty contract input gas value = none) ∧
    (∀ contract input gas value,
      (H.handle_request st.handler .contractCall
        (contract ++ value ++ beBytes 8 gas ++ input)).1.1 = [] →
      st.contract_call H R contract input gas value = none) ∧
    (∀ contract input gas,
      (H.handle_request st.handler .delegateCall
        (contract ++ bytes32Zero ++ beBytes 8 gas ++ input)).1.1 = [] →
      st.delegate_call H R contract input gas = none) ∧
    (∀ contract input gas,
      (H.handle_request st.handler .staticCall
        (contract ++ bytes32Zero ++ beBytes 8 gas ++ input)).1.1 = [] →
      st.static_call H R contract input gas = none) ∧
    (∀ clear gas_left,
      (H.handle_request st.handler .setTrieSlots
        (beBytes 8 gas_left ++
          pairsBytes (dirtySlotPairs st.storage_cache.slots))).1.1 = [] →
      st.flush_storage_cache H clear gas_left = none) ∧
    (∀ clear gas_left,
      (H.handle_request st.handler .setTrieSlots
        (beBytes 8 gas_left ++
          pairsBytes (dirtySlotPairs st.storage_cache.slots))).1.1 ≠ [] →
      st.flush_storage_cache H clear gas_left ≠ none) := by
  have hcall : ∀ ty contract input gas value,
      (H.handle_request st.handler ty
        (contract ++ value ++ beBytes 8 gas ++ input)).1.1 = [] →
      st.call_request H R ty contract input gas value = none := by
    intro ty contract input gas value hres
    unfold EvmApiRequestor.call_request EvmApiRequestor.handle_request
    simp only [hres]
    rfl
  refine ⟨hcall, fun c i g v h => hcall _ c i g v h,
    fun c i g h => hcall _ c i g bytes32Zero h,
    fun c i g h => hcall _ c i g bytes32Zero h, ?_, ?_⟩
  · intro clear gas_left hres
    unfold EvmApiRequestor.flush_storage_cache EvmApiRequestor.handle_request
    simp only [flushSlots_fst, flushSlots_snd, hres]
    rfl
  · intro clear gas_left hne
    obtain ⟨b, rest, hbr⟩ := List.exists_cons_of_ne_nil hne
    unfold EvmApiRequestor.flush_storage_cache EvmApiRequestor.handle_request
    simp only [flushSlots_fst, flushSlots_snd, hbr]
    intro heq
    simp only [List.head?_cons] at heq
    split_ifs at heq

/-- Witness for C10: under a handler that answers with the empty byte string,
the three call variants and the flush all panic; with a success byte the
flush returns. -/
theorem spec_C10_witness :
    (stEmptyU.call_request Hempty unitReader .contractCall a0 [] 0 v0 =
      none) ∧
    (stEmptyU.contract_call Hempty unitReader a0 [] 0 v0 = none) ∧
    (stEmptyU.delegate_call Hempty unitReader a0 [] 0 = none) ∧
    (stEmptyU.static_call Hempty unitReader a0 [] 0 = none) ∧
    (stEmptyU.flush_storage_cache Hempty false 0 = none) ∧
    (stEmptyU.flush_storage_cache H0 false 0 ≠ none) :=
  ⟨(spec_C10_empty_response Hempty unitReader stEmptyU).1 .contractCall
     a0 [] 0 v0 (by rfl),
   (spec_C10_empty_response Hempty unitReader stEmptyU).2.1 a0 [] 0 v0
     (by rfl),
   (spec_C10_empty_response Hempty unitReader stEmptyU).2.2.1 a0 [] 0
     (by rfl),
   (spec_C10_empty_response Hempty unitReader stEmptyU).2.2.2.1 a0 [] 0
     (by rfl),
   (spec_C10_empty_response Hempty unitReader stEmptyU).2.2.2.2.1 false 0
     (by rfl),
   (spec_C10_empty_response H0 unitReader stEmptyU).2.2.2.2.2 false 0
     (by decide)⟩

/-! ## Claim C9 -/

/-- Reading a big-endian field that is the entire remaining input. -/
theorem readBE_exact (w n : Nat) (h : n < 256 ^ w) :
    readBE w (beBytes w n) = some (n, []) := by
  have hx := readBE_append_of_lt w n [] h
  rwa [List.append_nil] at hx

/-- Reading raw bytes that are the entire remaining input. -/
theorem readBytes_exact (l : Bytes) (n : Nat) (h : l.length = n) :
    readBytes n l = some (l, []) := by
  have hx := readBytes_append l [] n h
  rwa [List.append_nil] at hx

/-- C9 (amended): for every operation kind in the spec's operation list and
every choice of typed arguments whose fixed-width fields have their wire
width, whose integers fit their machine types, and — for `capture_hostio` —
whose `name`, `args` and `outs` are shorter than 2^16 bytes (the length
prefixes are `as u16` casts), encoding the request payload and then decoding
it with the host-side decoder for that operation's wire layout reproduces the
typed arguments exactly. -/
theorem spec_C9_roundtrip (r : EvmRequest) (hwf : wellFormedRequest r) :
    decodeRequest r.tag (encodeRequest r) = some r := by
  have h2 : (256 : Nat) ^ 2 = 2 ^ 16 := by norm_num
  have h4 : (256 : Nat) ^ 4 = 2 ^ 32 := by norm_num
  have h8 : (256 : Nat) ^ 8 = 2 ^ 64 := by norm_num
  cases r with
  | getBytes32 key =>
    simp only [wellFormedRequest] at hwf
    simp [EvmRequest.tag, encodeRequest, decodeRequest, hwf]
  | setTrieSlots gas_left pairs =>
    obtain ⟨hg, hp⟩ := hwf
    simp [EvmRequest.tag, encodeRequest, decodeRequest,
      readBE_append_of_lt 8 gas_left (pairsBytes pairs)
        (by rw [h8]; exact hg),
      decodeSlotPairs_pairsBytes pairs hp]
  | contractCall contract input gas value =>
    obtain ⟨hc, hv, hg⟩ := hwf
    simp [EvmRequest.tag, encodeRequest, decodeRequest,
      readBytes_append contract (value ++ (beBytes 8 gas ++ input)) 20 hc,
      readBytes_append value (beBytes 8 gas ++ input) 32 hv,
      readBE_append_of_lt 8 gas input (by rw [h8]; exact hg)]
  | delegateCall contract input gas =>
    obtain ⟨hc, hg⟩ := hwf
    simp [EvmRequest.tag, encodeRequest, decodeRequest,
      readBytes_append contract (bytes32Zero ++ (beBytes 8 gas ++ input))
        20 hc,
      readBytes_append bytes32Zero (beBytes 8 gas ++ input) 32
        (by simp [bytes32Zero]),
      readBE_append_of_lt 8 gas input (by rw [h8]; exact hg)]
  | staticCall contract input gas =>
    obtain ⟨hc, hg⟩ := hwf
    simp [EvmRequest.tag, encodeRequest, decodeRequest,
      readBytes_append contract (bytes32Zero ++ (beBytes 8 gas ++ input))
        20 hc,
      readBytes_append bytes32Zero (beBytes 8 gas ++ input) 32
        (by simp [bytes32Zero]),
      readBE_append_of_lt 8 gas input (by rw [h8]; exact hg)]
  | create1 code endowment gas =>
    obtain ⟨he, hg⟩ := hwf
    simp [EvmRequest.tag, encodeRequest, decodeRequest,
      readBE_append_of_lt 8 gas (endowment ++ code) (by rw [h8]; exact hg),
      readBytes_append endowment code 32 he]
  | create2 code endowment salt gas =>
    obtain ⟨he, hs, hg⟩ := hwf
    simp [EvmRequest.tag, encodeRequest, decodeRequest,
      readBE_append_of_lt 8 gas (endowment ++ (salt ++ code))
        (by rw [h8]; exact hg),
      readBytes_append endowment (salt ++ code) 32 he,
      readBytes_append salt code 32 hs]
  | emitLog data topics =>
    simp only [wellFormedRequest] at hwf
    simp [EvmRequest.tag, encodeRequest, decodeRequest,
      readBE_append_of_lt 4 topics data (by rw [h4]; exact hwf)]
  | accountBalance address =>
    simp only [wellFormedRequest] at hwf
    simp [EvmRequest.tag, encodeRequest, decodeRequest, hwf]
  | accountCode address gas_left =>
    obtain ⟨ha, hg⟩ := hwf
    simp [EvmRequest.tag, encodeRequest, decodeRequest,
      readBytes_append address (beBytes 8 gas_left) 20 ha,
      readBE_exact 8 gas_left (by rw [h8]; exact hg)]
  | accountCodehash address =>
    simp only [wellFormedRequest] at hwf
    simp [EvmRequest.tag, encodeRequest, decodeRequest, hwf]
  | addPages pages =>
    simp only [wellFormedRequest] at hwf
    have hp : pages < 65536 := lt_of_lt_of_le hwf (by norm_num)
    simp [EvmRequest.tag, encodeRequest, decodeRequest, beBytes_length,
      beVal_beBytes, Nat.mod_eq_of_lt hp]
  | captureHostio name args outs start_ink end_ink =>
    obtain ⟨hs, he, hn, ha, ho⟩ := hwf
    simp [EvmRequest.tag, encodeRequest, decodeRequest,
      readBE_append_of_lt 8 start_ink _ (by rw [h8]; exact hs),
      readBE_append_of_lt 8 end_ink _ (by rw [h8]; exact he),
      readBE_append_of_lt 2 name.length _ (by rw [h2]; exact hn),
      readBE_append_of_lt 2 args.length _ (by rw [h2]; exact ha),
      readBE_append_of_lt 2 outs.length _ (by rw [h2]; exact ho),
      readBytes_append name (args ++ outs) name.length rfl,
      readBytes_append args outs args.length rfl,
      readBytes_exact outs outs.length rfl]

/-- Truncation of the `as u16` length prefix: a `capture_hostio` payload
whose `name` is exactly 65536 bytes long carries a zero length prefix, so the
host-side decoder reads an empty name and rejects the leftover bytes. -/
theorem decode_capture_truncation (name : Bytes) (hn : name.length = 65536) :
    decodeRequest EvmApiMethod.captureHostio
      (encodeRequest (.captureHostio name [] [] 0 0)) = none := by
  have hne : name ≠ [] := by
    intro h
    rw [h] at hn
    simp at hn
  have hmod : (65536 : Nat) % 256 ^ 2 = 0 := by norm_num
  simp [encodeRequest, decodeRequest, readBE_append, hn, hmod, readBytes_zero,
    hne]

/-- Counterexample to C9 as stated: `capture_hostio` writes the blob lengths
as `u16` casts, so a 65536-byte `name` gets the length prefix 0; the
host-side decoder then reads an empty name and rejects the 65536 leftover
bytes — the round trip fails for these typed arguments. -/
theorem spec_C9_counterexample :
    decodeRequest EvmApiMethod.captureHostio
      (encodeRequest (.captureHostio (List.replicate 65536 97) [] [] 0 0)) ≠
    some (.captureHostio (List.replicate 65536 97) [] [] 0 0) := by
  rw [decode_capture_truncation (List.replicate 65536 97)
    (by rw [List.length_replicate])]
  exact fun h => Option.noConfusion h

/-- Witness for C9: a concrete well-formed `contractCall` request round-trips
through encoding and decoding. -/
theorem spec_C9_witness :
    wellFormedRequest (.contractCall a0 [7] 9 v0) ∧
    decodeRequest (EvmRequest.contractCall a0 [7] 9 v0).tag
      (encodeRequest (.contractCall a0 [7] 9 v0)) =
      some (.contractCall a0 [7] 9 v0) :=
  ⟨by refine ⟨by rfl, by rfl, by decide⟩,
   spec_C9_roundtrip (.contractCall a0 [7] 9 v0)
     ⟨by rfl, by rfl, by decide⟩⟩
